import Mathlib

/-!
Verification of the Byte-Forge ROM patching library.

This development shallowly embeds the TypeScript sources (src/lib/core/binary-file.ts,
src/lib/formats/*.ts, the dispatcher, and the VCDIFF module) into Lean and settles the
frozen claims about them.  JavaScript numbers are modelled as `Int`, with the 32-bit
coercions that JS bitwise operators perform made explicit; byte stores are `List Nat`
with values kept below 256 by the same masking the code performs.
-/

set_option maxRecDepth 100000

namespace ByteForge

/-! ## JavaScript number semantics

JS bitwise operators coerce their operands with ToInt32/ToUint32 and mask shift
counts to five bits.  These helpers reproduce that behaviour on `Int`. -/

def toUint32 (x : Int) : Nat := (Int.emod x 4294967296).toNat

def toInt32 (x : Int) : Int :=
  let r := Int.emod x 4294967296
  if r < 2147483648 then r else r - 4294967296

def jsAnd (a b : Int) : Int := toInt32 (Int.ofNat (toUint32 a &&& toUint32 b))

def jsOr (a b : Int) : Int := toInt32 (Int.ofNat (toUint32 a ||| toUint32 b))

def jsXor (a b : Int) : Int := toInt32 (Int.ofNat (toUint32 a ^^^ toUint32 b))

/-- JS `a << k` (shift count is masked to 5 bits, result reinterpreted as Int32). -/
def jsShl (a : Int) (k : Nat) : Int := toInt32 (Int.ofNat (toUint32 a <<< (k % 32)))

/-- JS `a >>> k` (unsigned shift; result is non-negative). -/
def jsShrU (a : Int) (k : Nat) : Int := Int.ofNat (toUint32 a >>> (k % 32))

/-- JS `a >> k` (arithmetic shift = floor division of the Int32 value). -/
def jsShrS (a : Int) (k : Nat) : Int := Int.ediv (toInt32 a) (Int.ofNat (2 ^ (k % 32)))

/-- Bytes of a string under the `'ascii'` encoding used by
`BinFile.writeString` (`str.charCodeAt(i) & 0xFF`). -/
def asciiBytes (s : String) : List Nat := s.data.map (fun c => c.toNat % 256)

/-! ## Byte cursor: `BinFile` (src/lib/core/binary-file.ts)

`data` models the `Uint8Array` backing store, so `data.length` is the capacity;
`fileSize` is the logical size.  Methods that mutate `this` return the updated value. -/

structure BinFile where
  fileName : String
  fileSize : Nat
  littleEndian : Bool
  offset : Nat
  data : List Nat
deriving Repr, DecidableEq

/-- `new BinFile(size)`: empty file with the given size (zero-filled store). -/
def BinFile.ofSize (n : Nat) : BinFile :=
  ⟨"", n, false, 0, List.replicate n 0⟩

/-- `new BinFile(uint8array)`: file created from raw bytes. -/
def BinFile.ofBytes (bs : List Nat) : BinFile :=
  ⟨"", bs.length, false, 0, bs⟩

/-- `seek(offset)`: clamp the cursor into `[0, fileSize]`. -/
def BinFile.seek (f : BinFile) (o : Int) : BinFile :=
  { f with offset := (max 0 (min o (Int.ofNat f.fileSize))).toNat }

def BinFile.tell (f : BinFile) : Nat := f.offset

/-- `skip(bytes)`: `seek(this.offset + bytes)`. -/
def BinFile.skip (f : BinFile) (n : Int) : BinFile :=
  f.seek (Int.ofNat f.offset + n)

def BinFile.isEOF (f : BinFile) : Bool := f.offset ≥ f.fileSize

/-- `readU8()`: past `fileSize` return 0 without advancing; else read and advance. -/
def BinFile.readU8 (f : BinFile) : Nat × BinFile :=
  if f.offset ≥ f.fileSize then (0, f)
  else (f.data.getD f.offset 0, { f with offset := f.offset + 1 })

/-- `readU16()`: two `readU8`s combined according to `littleEndian`.
Byte values are < 256, so the JS shift/or arithmetic agrees with `Nat` arithmetic. -/
def BinFile.readU16 (f : BinFile) : Nat × BinFile :=
  let p1 := f.readU8
  let p2 := p1.2.readU8
  (if f.littleEndian then p2.1 <<< 8 ||| p1.1 else p1.1 <<< 8 ||| p2.1, p2.2)

def BinFile.readU24 (f : BinFile) : Nat × BinFile :=
  let p1 := f.readU8
  let p2 := p1.2.readU8
  let p3 := p2.2.readU8
  (if f.littleEndian then p3.1 <<< 16 ||| p2.1 <<< 8 ||| p1.1
   else p1.1 <<< 16 ||| p2.1 <<< 8 ||| p3.1, p3.2)

/-- `readU32()`: the trailing `>>> 0` makes the JS result the unsigned 32-bit value,
which on bytes < 256 equals this `Nat` expression. -/
def BinFile.readU32 (f : BinFile) : Nat × BinFile :=
  let p1 := f.readU8
  let p2 := p1.2.readU8
  let p3 := p2.2.readU8
  let p4 := p3.2.readU8
  (if f.littleEndian then p4.1 <<< 24 ||| p3.1 <<< 16 ||| p2.1 <<< 8 ||| p1.1
   else p1.1 <<< 24 ||| p2.1 <<< 16 ||| p3.1 <<< 8 ||| p4.1, p4.2)

/-- `readBytes(length)`: `data.slice(offset, min(offset+length, fileSize))`,
cursor moves to the end of the slice. -/
def BinFile.readBytes (f : BinFile) (length : Nat) : List Nat × BinFile :=
  let e := min (f.offset + length) f.fileSize
  ((f.data.drop f.offset).take (e - f.offset), { f with offset := e })

/-- `expand(newSize)`: grow the backing store (no-op when already large enough);
`fileSize` and `offset` are untouched. -/
def BinFile.expand (f : BinFile) (newSize : Nat) : BinFile :=
  if newSize ≤ f.data.length then f
  else { f with data := f.data ++ List.replicate (newSize - f.data.length) 0 }

/-- `writeU8(value)`: expand when the cursor is at or past the capacity, store
`value & 0xFF`, advance, and raise `fileSize` to the cursor when passed. -/
def BinFile.writeU8 (f : BinFile) (value : Int) : BinFile :=
  let f := if f.offset ≥ f.data.length then f.expand (f.offset + 1) else f
  { f with data := f.data.set f.offset (toUint32 (jsAnd value 255)),
           offset := f.offset + 1,
           fileSize := max f.fileSize (f.offset + 1) }

def BinFile.writeU16 (f : BinFile) (value : Int) : BinFile :=
  if f.littleEndian then
    (f.writeU8 (jsAnd value 255)).writeU8 (jsAnd (jsShrS value 8) 255)
  else
    (f.writeU8 (jsAnd (jsShrS value 8) 255)).writeU8 (jsAnd value 255)

def BinFile.writeU24 (f : BinFile) (value : Int) : BinFile :=
  if f.littleEndian then
    ((f.writeU8 (jsAnd value 255)).writeU8
        (jsAnd (jsShrS value 8) 255)).writeU8 (jsAnd (jsShrS value 16) 255)
  else
    ((f.writeU8 (jsAnd (jsShrS value 16) 255)).writeU8
        (jsAnd (jsShrS value 8) 255)).writeU8 (jsAnd value 255)

def BinFile.writeU32 (f : BinFile) (value : Int) : BinFile :=
  if f.littleEndian then
    (((f.writeU8 (jsAnd value 255)).writeU8
        (jsAnd (jsShrS value 8) 255)).writeU8
        (jsAnd (jsShrS value 16) 255)).writeU8 (jsAnd (jsShrS value 24) 255)
  else
    (((f.writeU8 (jsAnd (jsShrS value 24) 255)).writeU8
        (jsAnd (jsShrS value 16) 255)).writeU8
        (jsAnd (jsShrS value 8) 255)).writeU8 (jsAnd value 255)

/-- Overwrite `l[i .. i+bs.length)` with `bs` (semantics of `data.set(bs, i)`
once the store has been expanded so that `i + bs.length ≤ l.length`). -/
def setRange (l : List Nat) (i : Nat) (bs : List Nat) : List Nat :=
  l.take i ++ bs ++ l.drop (i + bs.length)

/-- `writeBytes(data)`: expand to `offset + data.length` when needed, bulk copy,
advance the cursor, raise `fileSize`. -/
def BinFile.writeBytes (f : BinFile) (bs : List Nat) : BinFile :=
  let f := if f.offset + bs.length > f.data.length then f.expand (f.offset + bs.length) else f
  { f with data := setRange f.data f.offset bs,
           offset := f.offset + bs.length,
           fileSize := max f.fileSize (f.offset + bs.length) }

/-- `writeString(str, 'ascii')`. -/
def BinFile.writeStringAscii (f : BinFile) (s : String) : BinFile :=
  f.writeBytes (asciiBytes s)

/-- `truncate(size)`: shrink `fileSize`, clamping the cursor. -/
def BinFile.truncate (f : BinFile) (size : Nat) : BinFile :=
  let fs := min size f.data.length
  { f with fileSize := fs, offset := if f.offset > fs then fs else f.offset }

/-- `clone()`: `new BinFile(this.data.slice())` with size, name and endianness copied
and the cursor reset to 0 (the `slice()` copies the whole backing store). -/
def BinFile.clone (f : BinFile) : BinFile :=
  { fileName := f.fileName, fileSize := f.fileSize, littleEndian := f.littleEndian,
    offset := 0, data := f.data }

/-- `copyTo(target, targetOffset, sourceLength?)`: slice `sourceLength` bytes (default
`fileSize - offset`) from the *source cursor* of `f`, then `target.seek(targetOffset)`
and `target.writeBytes(...)`.  Returns the updated target; `f`'s cursor
does not move. -/
def BinFile.copyTo (f : BinFile) (target : BinFile) (targetOffset : Nat)
    (sourceLength : Option Nat) : BinFile :=
  let length := sourceLength.getD (f.fileSize - f.offset)
  let sourceData := (f.data.drop f.offset).take length
  (target.seek (Int.ofNat targetOffset)).writeBytes sourceData

/-- `getBytes()`: `data.slice(0, fileSize)`. -/
def BinFile.getBytes (f : BinFile) : List Nat := f.data.take f.fileSize

/-! ## Checksums -/

/-- `_getCRC32Table()`: 256 entries, 8 rounds of
`c = (c & 1) ? (0xedb88320 ^ (c >>> 1)) : (c >>> 1)` each.  Entries are JS numbers
(Int32 after the xor), hence `Int`. -/
def crc32Table : List Int :=
  (List.range 256).map (fun n =>
    Nat.repeat
      (fun c => if jsAnd c 1 ≠ 0 then jsXor 0xedb88320 (jsShrU c 1) else jsShrU c 1)
      8 (Int.ofNat n))

/-- `hashCRC32(startOffset, endOffset)` over `data.slice(startOffset, endOffset)`;
the callers that pass no `endOffset` pass `fileSize` here. -/
def BinFile.hashCRC32 (f : BinFile) (startOffset endOffset : Nat) : Int :=
  let bytes := (f.data.take endOffset).drop startOffset
  let crc := bytes.foldl
    (fun crc b =>
      jsXor (crc32Table.getD (toUint32 (jsAnd (jsXor crc (Int.ofNat b)) 255)) 0)
        (jsShrU crc 8))
    (0xffffffff : Int)
  jsShrU (jsXor crc 0xffffffff) 0

/-- `_simpleHash(algorithm)`: the placeholder standing in for MD5/SHA1.
`hash = ((hash << 5) - hash + data[i]) & 0xffffffff` over `data.slice(0, fileSize)`,
then `Math.abs(hash).toString(16).padStart(32 or 40, '0')`. -/
def BinFile.simpleHash (f : BinFile) (algorithm : String) : String :=
  let bytes := f.data.take f.fileSize
  let hash := bytes.foldl
    (fun h b => jsAnd (jsShl h 5 - h + Int.ofNat b) 0xffffffff) (0 : Int)
  let hex := Nat.toDigits 16 hash.natAbs
  let width := if algorithm = "md5" then 32 else 40
  String.mk (List.replicate (width - hex.length) '0' ++ hex)

/-- `hashMD5()` delegates to the placeholder `_simpleHash('md5')`. -/
def BinFile.hashMD5 (f : BinFile) : String := f.simpleHash "md5"

/-- `VCDIFFPatch.adler32(file, offset, length)` (src/plugins/theme.client.ts):
standard mod-65521 loop, result `(b << 16) | a`. -/
def vcdiffAdler32 (file : BinFile) (offset length : Nat) : Int :=
  let st := (List.range length).foldl
    (fun (st : Nat × Nat) i =>
      let a := (st.1 + file.data.getD (offset + i) 0) % 65521
      ((a, (st.2 + a) % 65521) : Nat × Nat))
    (1, 0)
  jsOr (jsShl (Int.ofNat st.2) 16) (Int.ofNat st.1)

/-! ## Variable-length values

`BinFile.readVLV` consumes bytes through `readU8`; past the end of the file
`readU8` returns 0, whose continuation bit is clear, so decoding always stops at
the end of the stream.  We therefore model the decoder on the byte stream at the
cursor.  `BinFile.writeVLV`'s loop does not terminate when the running value
becomes a negative Int32 (`value >>= 7` then stays nonzero forever), so the
encoder takes fuel and returns `none` when the loop fails to finish. -/

/-- Decoding loop of `BinFile.readVLV`:
`value += (byte & 0x7f) * shift; if high bit clear stop; shift <<= 7; value += shift`. -/
def upsReadVLVLoop : List Nat → Int → Int → Int
  | [], value, _ => value
  | b :: rest, value, shift =>
    let value := value + Int.ofNat (b &&& 0x7f) * shift
    if b &&& 0x80 == 0 then value
    else
      let shift := jsShl shift 7
      upsReadVLVLoop rest (value + shift) shift

/-- `BinFile.readVLV()` on the bytes at the cursor. -/
def upsReadVLV (bytes : List Nat) : Int := upsReadVLVLoop bytes 0 1

/-- `BinFile.writeVLV(value)`: emit `value & 0x7f`, shift by 7; the final byte is the
one emitted when the remaining value is 0, continuation bytes carry `0x80`. -/
def upsWriteVLV : Nat → Int → Option (List Nat)
  | 0, _ => none
  | fuel + 1, value =>
    let x := jsAnd value 0x7f
    let value := jsShrS value 7
    if value == 0 then some [toUint32 (jsAnd x 255)]
    else (upsWriteVLV fuel value).map (fun rest => toUint32 (jsAnd (jsOr x 0x80) 255) :: rest)

/-- `RUPPatch.readVLV(file)`: a length byte `n`, then `n` bytes combined as
`data += byte << (i * 8)` (a JS shift, so the count is taken mod 32). -/
def rupReadVLV (file : BinFile) : Int × BinFile :=
  let p := file.readU8
  (List.range p.1).foldl
    (fun (acc : Int × BinFile) i =>
      let q := acc.2.readU8
      (acc.1 + jsShl (Int.ofNat q.1) (i * 8), q.2))
    (0, p.2)

/-- `RUPPatch.getVLVLength(data)`: `ret = 1; while (data) { ret++; data >>= 8 }`.
Fueled: for a negative Int32 the loop never reaches 0. -/
def rupGetVLVLength : Nat → Int → Option Nat
  | 0, _ => none
  | fuel + 1, data =>
    if data == 0 then some 1
    else (rupGetVLVLength fuel (jsShrS data 8)).map (· + 1)

/-- Emission loop of `RUPPatch.writeVLV`: `while (data) { writeU8(data & 0xff); data >>= 8 }`. -/
def rupWriteVLVLoop : Nat → Int → Option (List Nat)
  | 0, _ => none
  | fuel + 1, data =>
    if data == 0 then some []
    else (rupWriteVLVLoop fuel (jsShrS data 8)).map
      (fun rest => toUint32 (jsAnd data 255) :: rest)

/-- `RUPPatch.writeVLV(file, data)`: length byte `getVLVLength(data) - 1`, then the
little-endian magnitude bytes. -/
def rupWriteVLV (fuel : Nat) (data : Int) : Option (List Nat) :=
  (rupGetVLVLength fuel data).bind (fun len =>
    (rupWriteVLVLoop fuel data).map (fun bytes => (len - 1) :: bytes))

/-! ## IPS (src/lib/formats/ips.ts)

Filename bookkeeping (`setName`, `getName`, `getExtension`) only rewrites
`fileName` metadata and is omitted from the appliers and builders below. -/

inductive IPSRecord
  | simple (offset : Nat) (data : List Nat)
  | rle (offset length byte : Nat)
deriving Repr, DecidableEq

def IPSRecord.offset : IPSRecord → Nat
  | .simple o _ => o
  | .rle o _ _ => o

def IPSRecord.length : IPSRecord → Nat
  | .simple _ d => d.length
  | .rle _ l _ => l

structure IPSPatch where
  records : List IPSRecord
  truncateAt : Option Nat
deriving Repr, DecidableEq

/-- `IPSPatch.apply(romFile)`: clone, expand to the maximum record end, write each
record at its offset (RLE: `length` repetitions of `byte`), then apply the optional
truncation (skipped when the stored value is falsy, i.e. 0). -/
def IPSPatch.apply (patch : IPSPatch) (romFile : BinFile) : BinFile :=
  let patchedRom := romFile.clone
  let maxOffset := patch.records.foldl
    (fun m r => if r.offset + r.length > m then r.offset + r.length else m)
    patchedRom.fileSize
  let patchedRom :=
    if maxOffset > patchedRom.fileSize then patchedRom.expand maxOffset else patchedRom
  let patchedRom := patch.records.foldl
    (fun f r =>
      let f := f.seek (Int.ofNat r.offset)
      match r with
      | .rle _ len byte => Nat.repeat (fun g => g.writeU8 (Int.ofNat byte)) len f
      | .simple _ bytes => f.writeBytes bytes)
    patchedRom
  match patch.truncateAt with
  | some t => if t ≠ 0 then patchedRom.truncate t else patchedRom
  | none => patchedRom

/-- `originalFile.data[offset]` as a JS expression: `none` models `undefined`. -/
def jsByteAt (f : BinFile) (i : Nat) : Option Nat := f.data.get? i

/-- The byte `IPS.create` reads for the ORIGINAL side:
`offset < originalFile.fileSize ? originalFile.data[offset] : 0`. -/
def ipsOriginalByte (originalFile : BinFile) (offset : Nat) : Option Nat :=
  if offset < originalFile.fileSize then jsByteAt originalFile offset else some 0

/-- The byte `IPS.create` reads for the MODIFIED side.  The source reads
`offset < modifiedFile.fileSize ? originalFile.data[offset] : 0` — the array
indexed is `originalFile.data`, exactly as written in src/lib/formats/ips.ts
lines 280 and 289. -/
def ipsModifiedByte (originalFile modifiedFile : BinFile) (offset : Nat) : Option Nat :=
  if offset < modifiedFile.fileSize then jsByteAt originalFile offset else some 0

/-- Inner loop of `IPS.create`: collect `modifiedByte`s while the two reads differ,
returning the changes and the offset after the run. -/
def ipsCollectChanges (originalFile modifiedFile : BinFile) (maxSize : Nat) :
    Nat → Nat → List (Option Nat) × Nat
  | 0, offset => ([], offset)
  | fuel + 1, offset =>
    if offset < maxSize then
      let origByte := ipsOriginalByte originalFile offset
      let modByte := ipsModifiedByte originalFile modifiedFile offset
      if origByte ≠ modByte then
        let rest := ipsCollectChanges originalFile modifiedFile maxSize fuel (offset + 1)
        (modByte :: rest.1, rest.2)
      else ([], offset)
    else ([], offset)

/-- Outer loop of `IPS.create`: at each differing offset collect the run of changes
and emit an RLE record when `changes.length > 3` and all changes are equal, else a
simple record (`new Uint8Array(changes)` turns `undefined` entries into 0). -/
def ipsCreateLoop (originalFile modifiedFile : BinFile) (maxSize : Nat) :
    Nat → Nat → List IPSRecord
  | 0, _ => []
  | fuel + 1, offset =>
    if offset < maxSize then
      let origByte := ipsOriginalByte originalFile offset
      let modByte := ipsModifiedByte originalFile modifiedFile offset
      if origByte ≠ modByte then
        let run := ipsCollectChanges originalFile modifiedFile maxSize (fuel + 1) offset
        let changes := run.1
        let record :=
          if changes.length > 3 && changes.all (fun b => b == changes.headD none) then
            IPSRecord.rle offset changes.length ((changes.headD none).getD 0)
          else
            IPSRecord.simple offset (changes.map (fun b => b.getD 0))
        record :: ipsCreateLoop originalFile modifiedFile maxSize fuel run.2
      else ipsCreateLoop originalFile modifiedFile maxSize fuel (offset + 1)
    else []

/-- `IPS.create(originalFile, modifiedFile)`: scan `[0, max(sizes))`, then set the
truncation when the modified file is smaller.  (Fuel `maxSize` suffices: every outer
iteration advances the offset.) -/
def ipsCreate (originalFile modifiedFile : BinFile) : IPSPatch :=
  let maxSize := max originalFile.fileSize modifiedFile.fileSize
  { records := ipsCreateLoop originalFile modifiedFile maxSize maxSize 0,
    truncateAt :=
      if modifiedFile.fileSize < originalFile.fileSize then some modifiedFile.fileSize
      else none }

/-! ## UPS (src/lib/formats/ups.ts, `UPSPatch`) -/

structure UPSRecord where
  offset : Nat
  XORdata : List Nat
deriving Repr, DecidableEq

structure UPSPatch where
  upsRecords : List UPSRecord
  sizeInput : Nat
  sizeOutput : Nat
  checksumInput : Int
  checksumOutput : Int
deriving Repr, DecidableEq

/-- `UPSPatch.validateSource(romFile, headerSize)`:
`romFile.hashCRC32(headerSize) === this.checksumInput`.  `hashCRC32` with one
argument hashes up to `fileSize`, i.e. the whole buffer. -/
def UPSPatch.validateSource (p : UPSPatch) (romFile : BinFile) (headerSize : Nat) : Bool :=
  romFile.hashCRC32 headerSize romFile.fileSize == p.checksumInput

inductive UPSApplyError
  | sourceChecksumMismatch
  | targetChecksumMismatch
deriving Repr, DecidableEq

/-- XOR loop of one UPS record: for each XOR byte, read a source byte (0 at EOF)
and write `source ^ xor` into the output at the shared cursor. -/
def upsApplyRecordBytes : List Nat → BinFile → BinFile → BinFile × BinFile
  | [], tempFile, romFile => (tempFile, romFile)
  | xorByte :: rest, tempFile, romFile =>
    let p := if romFile.isEOF then (0, romFile) else romFile.readU8
    upsApplyRecordBytes rest (tempFile.writeU8 (Int.ofNat (p.1 ^^^ xorByte))) p.2

/-- `UPSPatch.apply(romFile)`: validate the source CRC32 (over the whole buffer),
widen the sizes when the source is larger than declared, copy `sizeInput` bytes,
XOR-apply each record at its running absolute offset, then check the output CRC32. -/
def UPSPatch.apply (p : UPSPatch) (romFile : BinFile) : Except UPSApplyError BinFile :=
  if ¬ p.validateSource romFile 0 then .error .sourceChecksumMismatch
  else
    let sizeInput := p.sizeInput
    let sizeOutput := p.sizeOutput
    let sizes :=
      if sizeInput < romFile.fileSize then
        (romFile.fileSize,
         if sizeOutput < romFile.fileSize then romFile.fileSize else sizeOutput)
      else (sizeInput, sizeOutput)
    let tempFile := BinFile.ofSize sizes.2
    let tempFile := romFile.copyTo tempFile 0 (some sizes.1)
    let st := p.upsRecords.foldl
      (fun (st : BinFile × BinFile × Nat) record =>
        let absoluteOffset := st.2.2 + record.offset
        let tempFile := st.1.seek (Int.ofNat absoluteOffset)
        let romFile := st.2.1.seek (Int.ofNat absoluteOffset)
        let pair := upsApplyRecordBytes record.XORdata tempFile romFile
        (pair.1, pair.2, absoluteOffset + record.XORdata.length))
      (tempFile, romFile, 0)
    let tempFile := st.1
    if tempFile.hashCRC32 0 tempFile.fileSize ≠ p.checksumOutput then
      .error .targetChecksumMismatch
    else .ok tempFile

/-! ## BPS (src/lib/formats/bps.ts, `BPSPatch.apply`) -/

def BPS_ACTION_SOURCE_READ : Nat := 0
def BPS_ACTION_TARGET_READ : Nat := 1
def BPS_ACTION_SOURCE_COPY : Nat := 2
def BPS_ACTION_TARGET_COPY : Nat := 3

structure BPSAction where
  type : Nat
  length : Nat
  bytes : List Nat
  relativeOffset : Int
deriving Repr, DecidableEq

structure BPSPatch where
  sourceSize : Nat
  targetSize : Nat
  actions : List BPSAction
  sourceChecksum : Int
  targetChecksum : Int
  patchChecksum : Int
deriving Repr, DecidableEq

/-- `u8array[i]` fed to `writeU8`: out-of-range (or negative) indices give
`undefined`, and `undefined & 0xFF` is 0, so the written byte is 0. -/
def u8ArrayByte (data : List Nat) (i : Int) : Int :=
  if 0 ≤ i then Int.ofNat (data.getD i.toNat 0) else 0

/-- SOURCE_COPY / TARGET_COPY inner loop reading from a fixed array:
`while (len--) tempFile.writeU8(src[off]); off++`. -/
def bpsCopyFromArray (src : List Nat) : Nat → BinFile → Int → BinFile × Int
  | 0, tempFile, off => (tempFile, off)
  | len + 1, tempFile, off =>
    bpsCopyFromArray src len (tempFile.writeU8 (u8ArrayByte src off)) (off + 1)

/-- TARGET_COPY inner loop: reads come from the evolving output buffer itself
(byte-at-a-time, so overlap reads see freshly written bytes). -/
def bpsCopyFromSelf : Nat → BinFile → Int → BinFile × Int
  | 0, tempFile, off => (tempFile, off)
  | len + 1, tempFile, off =>
    bpsCopyFromSelf len (tempFile.writeU8 (u8ArrayByte tempFile.data off)) (off + 1)

/-- One action of `BPSPatch.apply`'s loop; state is
(output file, sourceRelativeOffset, targetRelativeOffset).  SOURCE_READ is
`romFile.copyTo(tempFile, tempFile.offset, action.length)` followed by
`tempFile.skip(action.length)` — `copyTo` slices from `romFile`'s own cursor. -/
def bpsApplyAction (romFile : BinFile) (st : BinFile × Int × Int) (action : BPSAction) :
    BinFile × Int × Int :=
  let tempFile := st.1
  if action.type = BPS_ACTION_SOURCE_READ then
    let tempFile := romFile.copyTo tempFile tempFile.offset (some action.length)
    (tempFile.skip (Int.ofNat action.length), st.2)
  else if action.type = BPS_ACTION_TARGET_READ then
    (tempFile.writeBytes action.bytes, st.2)
  else if action.type = BPS_ACTION_SOURCE_COPY then
    let off := st.2.1 + action.relativeOffset
    let pair := bpsCopyFromArray romFile.data action.length tempFile off
    (pair.1, pair.2, st.2.2)
  else if action.type = BPS_ACTION_TARGET_COPY then
    let off := st.2.2 + action.relativeOffset
    let pair := bpsCopyFromSelf action.length tempFile off
    (pair.1, st.2.1, pair.2)
  else st

/-- `BPSPatch.apply(romFile, validate)`: optional source CRC32 check, a fresh
`targetSize` output, the action loop, and the optional target CRC32 check. -/
def BPSPatch.apply (p : BPSPatch) (romFile : BinFile) (validate : Bool) :
    Except UPSApplyError BinFile :=
  if validate ∧ ¬(p.sourceChecksum == romFile.hashCRC32 0 romFile.fileSize) then
    .error .sourceChecksumMismatch
  else
    let tempFile := BinFile.ofSize p.targetSize
    let st := p.actions.foldl (bpsApplyAction romFile) (tempFile, 0, 0)
    let tempFile := st.1
    if validate ∧ p.targetChecksum ≠ tempFile.hashCRC32 0 tempFile.fileSize then
      .error .targetChecksumMismatch
    else .ok tempFile

/-! ## PPF (src/lib/formats/ppf.ts) -/

structure PPFRecord where
  offset : Int
  data : List Nat
  undoData : Option (List Nat)
deriving Repr, DecidableEq

/-- `blockCheck : boolean | number[]` is modelled as `Option (List Nat)`
(`none` = `false`); strings are kept as their ascii bytes. -/
structure PPFPatch where
  version : Nat
  imageType : Nat
  blockCheck : Option (List Nat)
  undoData : Bool
  records : List PPFRecord
  description : List Nat
  fileIdDiz : Option (List Nat)
  inputFileSize : Option Nat
deriving Repr, DecidableEq

def padEndBytes (bs : List Nat) (n : Nat) (c : Nat) : List Nat :=
  bs ++ List.replicate (n - bs.length) c

def padStartBytes (bs : List Nat) (n : Nat) (c : Nat) : List Nat :=
  List.replicate (n - bs.length) c ++ bs

/-- `n.toString()` as ascii bytes. -/
def natDecimalBytes (n : Nat) : List Nat := (Nat.toDigits 10 n).map (fun c => c.toNat % 256)

/-- `parseInt` on an ascii string: the leading digit run, `none` for `NaN`
(the inputs exercised here carry no sign or whitespace). -/
def parseIntAscii (bs : List Nat) : Option Nat :=
  let digits := bs.takeWhile (fun b => 48 ≤ b ∧ b ≤ 57)
  if digits.isEmpty then none
  else some (digits.foldl (fun acc d => acc * 10 + (d - 48)) 0)

/-- `PPFPatch.export()`.  For version 3 the record offset is written as
`writeU32(offset & 0xFFFFFFFF)` then `writeU32((offset >> 32) & 0xFFFFFFFF)` —
a JS `>>` whose shift count 32 is masked to 0, so the "high dword" is
`ToInt32(offset)` again.  The version byte is written as `version + 1`. -/
def PPFPatch.export (p : PPFPatch) : BinFile :=
  let patchFileSize := 5 + 1 + 50 +
    p.records.foldl
      (fun acc r => acc + 4 + 1 + r.data.length + (if p.version == 3 then 4 else 0)) 0
  let patchFileSize :=
    if p.version == 3 ∨ p.version == 2 then patchFileSize + 4 else patchFileSize
  let patchFileSize := if p.blockCheck.isSome then patchFileSize + 1024 else patchFileSize
  let patchFileSize :=
    match p.fileIdDiz with
    | some d => patchFileSize + 18 + d.length + 16 + 4
    | none => patchFileSize
  let t := BinFile.ofSize patchFileSize
  let t := t.writeStringAscii "PPF"
  let t := t.writeBytes (padStartBytes (natDecimalBytes (p.version * 10)) 2 48)
  let t := t.writeU8 (Int.ofNat (p.version + 1))
  let t := t.writeBytes (padEndBytes p.description 50 32)
  let t :=
    if p.version == 3 then
      (((t.writeU8 (Int.ofNat p.imageType)).writeU8
          (if p.blockCheck.isSome then 1 else 0)).writeU8
          (if p.undoData then 1 else 0)).writeU8 0
    else if p.version == 2 then t.writeU32 (Int.ofNat (p.inputFileSize.getD 0))
    else t
  let t := match p.blockCheck with
    | some bc => t.writeBytes bc
    | none => t
  let t := { t with littleEndian := true }
  let t := p.records.foldl
    (fun t r =>
      let t :=
        if p.version == 3 then
          (t.writeU32 (jsAnd r.offset 0xFFFFFFFF)).writeU32
            (jsAnd (jsShrS r.offset 32) 0xFFFFFFFF)
        else t.writeU32 r.offset
      let t := t.writeU8 (Int.ofNat r.data.length)
      let t := t.writeBytes r.data
      match p.undoData, r.undoData with
      | true, some u => t.writeBytes u
      | _, _ => t)
    t
  match p.fileIdDiz with
  | some d =>
    (((((t.writeStringAscii "@BEGIN_FILE_ID.DIZ").writeU8 0).writeU8 0).writeU32
        (Int.ofNat (d.length + 16))).writeBytes d).writeStringAscii "@END_FILE_ID.DIZ"
  | none => t

/-- First index at which `needle` occurs in `hay` (JS `indexOf` on the strings). -/
def findSubList (hay needle : List Nat) : Option Nat :=
  (List.range (hay.length + 1)).find? (fun i => needle == (hay.drop i).take needle.length)

/-- Record-reading loop of `PPF.fromFile` (fueled by the file size: each iteration
below EOF consumes at least one byte). -/
def ppfReadRecords (version : Nat) (undo : Bool) :
    Nat → BinFile → List PPFRecord → List PPFRecord × Option (List Nat)
  | 0, _, acc => (acc.reverse, none)
  | fuel + 1, st, acc =>
    if st.isEOF then (acc.reverse, none)
    else
      let r4 := st.readBytes 4
      if r4.1 == asciiBytes "BEGI" then
        -- `@BEGIN_FILE_ID.DIZ` trailer: skip 14, read up to 3072 chars, cut at the
        -- end marker (JS `substr(0, indexOf(...))`, which is "" when not found).
        let st := r4.2.skip 14
        let diz := (st.readBytes 3072).1
        let content :=
          match findSubList diz (asciiBytes "@END_FILE_ID.DIZ") with
          | some i => diz.take i
          | none => []
        (acc.reverse, some content)
      else
        let st := r4.2.skip (-4)
        let offsetAndSt :=
          if version == 3 then
            let q1 := st.readU32
            let q2 := q1.2.readU32
            ((Int.ofNat (q1.1 + q2.1 * 0x100000000)), q2.2)
          else
            let q := st.readU32
            (Int.ofNat q.1, q.2)
        let st := offsetAndSt.2
        let ql := st.readU8
        let qd := ql.2.readBytes ql.1
        let undoPair :=
          if undo then
            let qu := qd.2.readBytes ql.1
            (some qu.1, qu.2)
          else (none, qd.2)
        ppfReadRecords version undo fuel undoPair.2
          (⟨offsetAndSt.1, qd.1, undoPair.1⟩ :: acc)

/-- `PPF.fromFile(patchFile)`: version check
(`version1 = parseInt(readString(2))/10`, `version2 = readU8() + 1`,
throw when `version1 !== version2 || version1 > 3`; the division is exact, so the
check is stated on the undivided value), header fields, optional 1024-byte block
check, then the record loop. -/
def PPF.fromFile (patchFile : BinFile) : Except String PPFPatch :=
  let patchFile := patchFile.seek 3
  let p1 := patchFile.readBytes 2
  let p2 := p1.2.readU8
  let version2 := p2.1 + 1
  match parseIntAscii p1.1 with
  | none => .error "Invalid PPF version"
  | some v10 =>
    if v10 ≠ 10 * version2 ∨ 30 < v10 then .error "Invalid PPF version"
    else
      let version := version2
      let descPair := p2.2.readBytes 50
      let st := descPair.2
      let hdr :=
        if version == 3 then
          let q1 := st.readU8
          let q2 := q1.2.readU8
          let q3 := q2.2.readU8
          ((q1.1, q2.1 != 0, q3.1 != 0, (none : Option Nat)), q3.2.skip 1)
        else if version == 2 then
          let q := st.readU32
          ((0, true, false, some q.1), q.2)
        else ((0, false, false, none), st)
      let st := hdr.2
      let blockPair :=
        if hdr.1.2.1 then
          let q := st.readBytes 1024
          ((some q.1 : Option (List Nat)), q.2)
        else (none, st)
      let st := { blockPair.2 with littleEndian := true }
      let recs := ppfReadRecords version hdr.1.2.2.1 st.fileSize st []
      .ok { version := version, imageType := hdr.1.1, blockCheck := blockPair.1,
            undoData := hdr.1.2.2.1, records := recs.1,
            description := descPair.1, fileIdDiz := recs.2,
            inputFileSize := hdr.1.2.2.2 }

/-! ## Dispatcher (`RomPatcher.parsePatchFile`, src/unnamed/part_002)

The registry `formatModules` as constructed in the source: the BPS, APS-N64, PPF
and RUP entries are commented out there, so only five modules are registered, in
this insertion order. -/

inductive PatchFormatTag
  | IPS
  | UPS
  | APSGBA
  | PMSR
  | VCDIFF
deriving Repr, DecidableEq

/-- `header.startsWith(magic)` on the ascii strings, as byte lists. -/
def headerStartsWith : List Nat → List Nat → Bool
  | _, [] => true
  | [], _ :: _ => false
  | h :: hs, m :: ms => h == m && headerStartsWith hs ms

/-- The magics of the five registered modules: `IPS_MAGIC = 'PATCH'` (ips.ts),
`UPS_MAGIC = 'UPS1'` (ups.ts), `APS_GBA_MAGIC = 'APS1'` (aps-gba.ts),
`PMSR_MAGIC = 'PMSR'` (the PMSR module concatenated into aps-gba.ts, lines
240-439, whose `PMSRModule.magic` is `PMSR_MAGIC`), and
`VCDIFF_MAGIC = '\xd6\xc3\xc4'` (the VCDIFF module in theme.client.ts). -/
def formatModules : List (List Nat × PatchFormatTag) :=
  [(asciiBytes "PATCH", .IPS),
   (asciiBytes "UPS1", .UPS),
   (asciiBytes "APS1", .APSGBA),
   (asciiBytes "PMSR", .PMSR),
   ([0xd6, 0xc3, 0xc4], .VCDIFF)]

inductive DispatchResult
  | tooSmall
  | selected (tag : PatchFormatTag)
  | unsupported
deriving Repr, DecidableEq

/-- `RomPatcher.parsePatchFile`: reject buffers under 5 bytes, read the first
6 bytes, and hand the buffer to the first registered module whose magic is a
prefix of that header; otherwise `UnsupportedFormatError`.  (We record which
module is selected; its `parse` is then invoked on the buffer.) -/
def parsePatchFileDispatch (patchFile : BinFile) : DispatchResult :=
  let patchFile := patchFile.seek 0
  if patchFile.fileSize < 5 then .tooSmall
  else
    let header := (patchFile.readBytes 6).1
    match formatModules.find? (fun m => headerStartsWith header m.1) with
    | some m => .selected m.2
    | none => .unsupported

/-! ## VCDIFF default code table (src/plugins/theme.client.ts, `VCD_DEFAULT_CODE_TABLE`) -/

def VCD_NOOP : Nat := 0
def VCD_ADD : Nat := 1
def VCD_RUN : Nat := 2
def VCD_COPY : Nat := 3

structure VCDInstr where
  type : Nat
  size : Nat
  mode : Nat
deriving Repr, DecidableEq

def vcdEmpty : VCDInstr := ⟨VCD_NOOP, 0, 0⟩

/-- The IIFE that builds the 256-entry default code table: RUN at 0; 18 ADDs with
sizes 0..17; per mode a COPY with size 0 then sizes 4..18; ADD+COPY composites for
modes 0-5 (add 1-4 × copy 4-6) and 6-8 (add 1-4, copy 4); COPY+ADD composites
(copy 4, add 1) for the 9 modes. -/
def VCD_DEFAULT_CODE_TABLE : List (VCDInstr × VCDInstr) :=
  [(⟨VCD_RUN, 0, 0⟩, vcdEmpty)]
  ++ (List.range 18).map (fun size => (⟨VCD_ADD, size, 0⟩, vcdEmpty))
  ++ (List.range 9).flatMap (fun mode =>
       (⟨VCD_COPY, 0, mode⟩, vcdEmpty)
         :: (List.range 15).map (fun k => (⟨VCD_COPY, 4 + k, mode⟩, vcdEmpty)))
  ++ (List.range 6).flatMap (fun mode =>
       (List.range 4).flatMap (fun a =>
         (List.range 3).map (fun c =>
           (⟨VCD_ADD, 1 + a, 0⟩, ⟨VCD_COPY, 4 + c, mode⟩))))
  ++ (List.range 3).flatMap (fun m =>
       (List.range 4).map (fun a => (⟨VCD_ADD, 1 + a, 0⟩, ⟨VCD_COPY, 4, 6 + m⟩)))
  ++ (List.range 9).map (fun mode => (⟨VCD_COPY, 4, mode⟩, ⟨VCD_ADD, 1, 0⟩))

/-! ## Heap model for aliasing (`clone` / `expand` / writes)

To state that `clone()` shares no storage with the original, `Uint8Array`s are
placed in an explicit store and a `BinFile` holds a reference into it.  `clone`
runs `new BinFile(this.data.slice())`, i.e. it *allocates* a fresh array holding a
copy of the bytes; `expand` likewise allocates (`this.data = newData`), while
`writeU8`/`writeBytes` mutate the referenced array in place. -/

namespace Heap

structure Store where
  arrays : List (List Nat)
deriving Repr, DecidableEq

structure BinFileRef where
  fileName : String
  fileSize : Nat
  littleEndian : Bool
  offset : Nat
  dataRef : Nat
deriving Repr, DecidableEq

def Store.arr (s : Store) (r : Nat) : List Nat := s.arrays.getD r []

def Store.setArr (s : Store) (r : Nat) (a : List Nat) : Store := ⟨s.arrays.set r a⟩

def Store.alloc (s : Store) (a : List Nat) : Store × Nat :=
  (⟨s.arrays ++ [a]⟩, s.arrays.length)

/-- `clone()`: allocate a copy of the whole backing store (`this.data.slice()`),
copy `fileName`, `fileSize`, `littleEndian`, and reset `offset` to 0. -/
def clone (s : Store) (f : BinFileRef) : Store × BinFileRef :=
  let al := s.alloc (s.arr f.dataRef)
  (al.1, { fileName := f.fileName, fileSize := f.fileSize,
           littleEndian := f.littleEndian, offset := 0, dataRef := al.2 })

/-- `expand(newSize)`: when growing, allocate the larger array and repoint
`this.data` at it; the old array is unchanged. -/
def expand (s : Store) (f : BinFileRef) (newSize : Nat) : Store × BinFileRef :=
  let data := s.arr f.dataRef
  if newSize ≤ data.length then (s, f)
  else
    let al := s.alloc (data ++ List.replicate (newSize - data.length) 0)
    (al.1, { f with dataRef := al.2 })

/-- `writeU8(value)`: expand when needed, then mutate the referenced array. -/
def writeU8 (s : Store) (f : BinFileRef) (value : Int) : Store × BinFileRef :=
  let ef := if f.offset ≥ (s.arr f.dataRef).length then expand s f (f.offset + 1) else (s, f)
  let s := ef.1
  let f := ef.2
  (s.setArr f.dataRef ((s.arr f.dataRef).set f.offset (toUint32 (jsAnd value 255))),
   { f with offset := f.offset + 1, fileSize := max f.fileSize (f.offset + 1) })

/-- `writeBytes(bytes)`. -/
def writeBytes (s : Store) (f : BinFileRef) (bs : List Nat) : Store × BinFileRef :=
  let ef := if f.offset + bs.length > (s.arr f.dataRef).length then
      expand s f (f.offset + bs.length) else (s, f)
  let s := ef.1
  let f := ef.2
  (s.setArr f.dataRef (setRange (s.arr f.dataRef) f.offset bs),
   { f with offset := f.offset + bs.length, fileSize := max f.fileSize (f.offset + bs.length) })

/-- The mutating operations the claim quantifies over. -/
inductive WOp
  | w8 (value : Int)
  | wbytes (bs : List Nat)
  | grow (newSize : Nat)
deriving Repr

def runOp (s : Store) (f : BinFileRef) : WOp → Store × BinFileRef
  | .w8 v => writeU8 s f v
  | .wbytes bs => writeBytes s f bs
  | .grow n => expand s f n

def runOps (s : Store) (f : BinFileRef) : List WOp → Store × BinFileRef
  | [] => (s, f)
  | op :: ops =>
    let sf := runOp s f op
    runOps sf.1 sf.2 ops

end Heap

/-! ## Claim theorems -/

/-- C1: the round trip `apply (create source modified IPS) source = modified` fails
on the code.  `IPS.create` reads `originalFile.data[offset]` for *both* sides of
the comparison, so for source `[0x00]` and modified `[0x01]` it emits no records
at all, and applying the created patch to the source returns `[0x00]`, not the
modified `[0x01]`. -/
theorem claim_C1_ips_create_apply_failing :
    (ipsCreate (BinFile.ofBytes [0x00]) (BinFile.ofBytes [0x01])).records = [] ∧
    ((ipsCreate (BinFile.ofBytes [0x00]) (BinFile.ofBytes [0x01])).apply
        (BinFile.ofBytes [0x00])).getBytes = [0x00] ∧
    (BinFile.ofBytes [0x01]).getBytes = [0x01] ∧
    ((ipsCreate (BinFile.ofBytes [0x00]) (BinFile.ofBytes [0x01])).apply
        (BinFile.ofBytes [0x00])).getBytes ≠ (BinFile.ofBytes [0x01]).getBytes :=
  ⟨rfl, rfl, rfl, by decide⟩

/-- C2: the UPS variable-length encoding does not round-trip.  `BinFile.writeVLV 128`
emits the bytes `[0x80, 0x01]`, but `BinFile.readVLV` adds a continuation bias
(`shift <<= 7; value += shift`) that the writer never subtracts, so those bytes
decode to 256, not 128.  (The RUP length-prefixed encoding does round-trip on small
values, e.g. 300.) -/
theorem claim_C2_ups_vlv_roundtrip_failing :
    upsWriteVLV 64 128 = some [0x80, 0x01] ∧
    upsReadVLV [0x80, 0x01] = 256 ∧
    (256 : Int) ≠ 128 ∧
    (rupWriteVLV 64 300).map (fun bs => (rupReadVLV (BinFile.ofBytes bs)).1) = some 300 :=
  ⟨rfl, rfl, by decide, rfl⟩

/-- C3: evaluation of `BPSPatch.apply` at a patch whose actions are
`TargetRead [0x09]` then `SourceRead 2`, on source `[1,2,3,4]`.  The claim requires
the SourceRead to copy `source[1], source[2] = [2, 3]` (source position = current
output offset 1) and to advance the output offset by 2.  The code instead calls
`romFile.copyTo(tempFile, tempFile.offset, length)`, which slices from `romFile`'s
own cursor (position 0, bytes `[1, 2]`), and then both `writeBytes` and the explicit
`skip` advance the output cursor, by 2 each.  The lone-SourceRead conjunct shows the
cursor landing at 4 after copying 2 bytes. -/
theorem claim_C3_bps_source_read_failing :
    (BPSPatch.apply
        { sourceSize := 4, targetSize := 3,
          actions := [⟨BPS_ACTION_TARGET_READ, 1, [0x09], 0⟩,
                      ⟨BPS_ACTION_SOURCE_READ, 2, [], 0⟩],
          sourceChecksum := 0, targetChecksum := 0, patchChecksum := 0 }
        (BinFile.ofBytes [1, 2, 3, 4]) false).map BinFile.getBytes = .ok [0x09, 1, 2] ∧
    [0x09, (1 : Nat), 2] ≠ [0x09, 2, 3] ∧
    (BPSPatch.apply
        { sourceSize := 4, targetSize := 10,
          actions := [⟨BPS_ACTION_SOURCE_READ, 2, [], 0⟩],
          sourceChecksum := 0, targetChecksum := 0, patchChecksum := 0 }
        (BinFile.ofBytes [1, 2, 3, 4]) false).map BinFile.offset = .ok 4 :=
  ⟨rfl, by decide, rfl⟩

/-- C4: `parse (export patch)` fails for every PPF patch.  The exporter writes the
binary version byte as `version + 1` (4 for v3) while the parser computes
`version2 = readU8() + 1` (5) and compares it with the textual version (3), so
parsing an exported file throws `Invalid PPF version`.  Moreover the v3 "high
dword" of a record offset is written as `(offset >> 32) & 0xFFFFFFFF`, and a JS
shift by 32 is a shift by 0, so both dwords of the 64-bit offset hold the same
value: for a record at offset 1 the file carries `[1,0,0,0, 1,0,0,0]`, which would
re-parse as offset `1 + 2^32` even if the version check passed. -/
theorem claim_C4_ppf_roundtrip_failing :
    PPF.fromFile
        (PPFPatch.export
          ⟨3, 0, none, false, [⟨1, [0xAA], none⟩],
           asciiBytes "Patch description", none, none⟩) = .error "Invalid PPF version" ∧
    (((PPFPatch.export
          ⟨3, 0, none, false, [⟨1, [0xAA], none⟩],
           asciiBytes "Patch description", none, none⟩).data.drop 60).take 8) =
      [1, 0, 0, 0, 1, 0, 0, 0] :=
  ⟨rfl, rfl⟩

/-- C5 counterexample: a buffer beginning with the byte-exact magic `BPS1` is NOT
handed to a BPS codec — the dispatcher's registry has the BPS entry commented out,
so `parsePatchFile` reports `UnsupportedFormatError` on it, contradicting the claim
that every magic in the spec's list selects its codec. -/
theorem claim_C5_dispatch_bps_counterexample :
    parsePatchFileDispatch (BinFile.ofBytes (asciiBytes "BPS1" ++ [0, 0])) =
      .unsupported := rfl

/-- C5 (amended): the dispatcher registers exactly IPS (`PATCH`), UPS (`UPS1`),
APS-GBA (`APS1`), PMSR (`PMSR`) and VCDIFF (`D6 C3 C4`).  Buffers with those
leading magics select the corresponding codec — `APS10` buffers are captured by
the `APS1` prefix and go to the APS-GBA codec — while the spec magics `BPS1`,
`PPF` and `NINJA2` fall through to `UnsupportedFormatError`. -/
theorem claim_C5_dispatch_registered_magics :
    parsePatchFileDispatch (BinFile.ofBytes (asciiBytes "PATCH" ++ [0])) = .selected .IPS ∧
    parsePatchFileDispatch (BinFile.ofBytes (asciiBytes "UPS1" ++ [0, 0])) = .selected .UPS ∧
    parsePatchFileDispatch (BinFile.ofBytes (asciiBytes "BPS1" ++ [0, 0])) = .unsupported ∧
    parsePatchFileDispatch (BinFile.ofBytes (asciiBytes "APS10" ++ [0])) = .selected .APSGBA ∧
    parsePatchFileDispatch (BinFile.ofBytes (asciiBytes "APS1" ++ [1, 0])) = .selected .APSGBA ∧
    parsePatchFileDispatch (BinFile.ofBytes (asciiBytes "PPF30" ++ [2])) = .unsupported ∧
    parsePatchFileDispatch (BinFile.ofBytes (asciiBytes "NINJA2")) = .unsupported ∧
    parsePatchFileDispatch (BinFile.ofBytes (asciiBytes "PMSR" ++ [0, 0])) = .selected .PMSR ∧
    parsePatchFileDispatch (BinFile.ofBytes ([0xd6, 0xc3, 0xc4] ++ [0, 0, 0])) =
      .selected .VCDIFF :=
  ⟨rfl, rfl, rfl, rfl, rfl, rfl, rfl, rfl, rfl⟩

/-- C6: a UPS patch declaring `sizeInput = 1` with `checksumInput = CRC32([0x01])`
(no XOR records), applied to the longer source `[0x01, 0x02]` that agrees with the
declared range.  The CRC over the declared range matches the declared checksum,
yet `validateSource` hashes the *whole* buffer (`hashCRC32(headerSize)` defaults
its end to `fileSize`), so it returns `false` and `apply` throws
`Source ROM checksum mismatch` instead of passing the extra byte through. -/
theorem claim_C6_ups_larger_source_failing :
    (BinFile.ofBytes [0x01, 0x02]).hashCRC32 0 1 =
      (BinFile.ofBytes [0x01]).hashCRC32 0 1 ∧
    UPSPatch.validateSource
        ⟨[], 1, 1, (BinFile.ofBytes [0x01]).hashCRC32 0 1,
         (BinFile.ofBytes [0x01]).hashCRC32 0 1⟩
        (BinFile.ofBytes [0x01, 0x02]) 0 = false ∧
    UPSPatch.apply
        ⟨[], 1, 1, (BinFile.ofBytes [0x01]).hashCRC32 0 1,
         (BinFile.ofBytes [0x01]).hashCRC32 0 1⟩
        (BinFile.ofBytes [0x01, 0x02]) = .error .sourceChecksumMismatch :=
  ⟨rfl, rfl, rfl⟩

/-- C7: the CRC32 and Adler-32 test vectors hold (CRC32 "" = 0,
CRC32 "123456789" = 0xCBF43926, Adler-32 "Wikipedia" = 0x11E60398), but
`hashMD5` is the placeholder `_simpleHash('md5')` and returns thirty-two `'0'`
characters on the empty input instead of d41d8cd98f00b204e9800998ecf8427e. -/
theorem claim_C7_checksum_vectors :
    (BinFile.ofBytes []).hashCRC32 0 0 = 0 ∧
    (BinFile.ofBytes (asciiBytes "123456789")).hashCRC32 0 9 = 0xCBF43926 ∧
    vcdiffAdler32 (BinFile.ofBytes (asciiBytes "Wikipedia")) 0 9 = 0x11E60398 ∧
    (BinFile.ofBytes []).hashMD5 = "00000000000000000000000000000000" ∧
    (BinFile.ofBytes []).hashMD5 ≠ "d41d8cd98f00b204e9800998ecf8427e" :=
  ⟨rfl, rfl, rfl, rfl, by decide⟩

/-- C8: the default VCDIFF code table is exactly the RFC 3284 table — 256 entries:
RUN (size coded separately) at index 0; ADDs of sizes 0, 1..17 at 1..18; per copy
mode a COPY with separately coded size then COPYs of sizes 4..18 filling 19..162;
ADD+COPY composites at 163..234 (modes 0-5, add 1-4, copy 4-6) and 235..246
(modes 6-8, add 1-4, copy 4); COPY+ADD composites (copy 4, add 1) at 247..255. -/
theorem claim_C8_vcdiff_code_table :
    VCD_DEFAULT_CODE_TABLE.length = 256 ∧
    VCD_DEFAULT_CODE_TABLE.getD 0 (vcdEmpty, vcdEmpty) = (⟨VCD_RUN, 0, 0⟩, vcdEmpty) ∧
    ((List.range 18).all fun s =>
      VCD_DEFAULT_CODE_TABLE.getD (1 + s) (vcdEmpty, vcdEmpty) ==
        (⟨VCD_ADD, s, 0⟩, vcdEmpty)) = true ∧
    ((List.range 9).all fun mode =>
      (VCD_DEFAULT_CODE_TABLE.getD (19 + 16 * mode) (vcdEmpty, vcdEmpty) ==
        (⟨VCD_COPY, 0, mode⟩, vcdEmpty)) &&
      (List.range 15).all fun k =>
        VCD_DEFAULT_CODE_TABLE.getD (19 + 16 * mode + 1 + k) (vcdEmpty, vcdEmpty) ==
          (⟨VCD_COPY, 4 + k, mode⟩, vcdEmpty)) = true ∧
    ((List.range 6).all fun mode =>
      (List.range 4).all fun a =>
        (List.range 3).all fun c =>
          VCD_DEFAULT_CODE_TABLE.getD (163 + 12 * mode + 3 * a + c) (vcdEmpty, vcdEmpty) ==
            (⟨VCD_ADD, 1 + a, 0⟩, ⟨VCD_COPY, 4 + c, mode⟩)) = true ∧
    ((List.range 3).all fun m =>
      (List.range 4).all fun a =>
        VCD_DEFAULT_CODE_TABLE.getD (235 + 4 * m + a) (vcdEmpty, vcdEmpty) ==
          (⟨VCD_ADD, 1 + a, 0⟩, ⟨VCD_COPY, 4, 6 + m⟩)) = true ∧
    ((List.range 9).all fun mode =>
      VCD_DEFAULT_CODE_TABLE.getD (247 + mode) (vcdEmpty, vcdEmpty) ==
        (⟨VCD_COPY, 4, mode⟩, ⟨VCD_ADD, 1, 0⟩)) = true :=
  ⟨rfl, rfl, rfl, rfl, rfl, rfl, rfl⟩

/-! ## Byte-cursor invariant (claim C9) -/

/-- The invariant `0 ≤ offset ≤ size ≤ capacity`; the lower bound is inherent in
the `Nat` representation (`seek` clamps below at 0 in the source). -/
def BFInv (f : BinFile) : Prop :=
  f.offset ≤ f.fileSize ∧ f.fileSize ≤ f.data.length

theorem seek_inv {f : BinFile} (h : BFInv f) (o : Int) : BFInv (f.seek o) := by
  refine ⟨?_, h.2⟩
  show (max 0 (min o (Int.ofNat f.fileSize))).toNat ≤ f.fileSize
  have h1 : min o (Int.ofNat f.fileSize) ≤ Int.ofNat f.fileSize := min_le_right _ _
  have h2 : max 0 (min o (Int.ofNat f.fileSize)) ≤ Int.ofNat f.fileSize :=
    max_le (Int.natCast_nonneg _) h1
  exact Int.toNat_le.mpr h2

theorem skip_inv {f : BinFile} (h : BFInv f) (n : Int) : BFInv (f.skip n) :=
  seek_inv h _

theorem readU8_inv {f : BinFile} (h : BFInv f) : BFInv (f.readU8).2 := by
  unfold BinFile.readU8
  split
  · exact h
  · rename_i hlt
    refine ⟨?_, h.2⟩
    show f.offset + 1 ≤ f.fileSize
    omega

theorem readU16_inv {f : BinFile} (h : BFInv f) : BFInv (f.readU16).2 :=
  readU8_inv (readU8_inv h)

theorem readU24_inv {f : BinFile} (h : BFInv f) : BFInv (f.readU24).2 :=
  readU8_inv (readU8_inv (readU8_inv h))

theorem readU32_inv {f : BinFile} (h : BFInv f) : BFInv (f.readU32).2 :=
  readU8_inv (readU8_inv (readU8_inv (readU8_inv h)))

theorem readBytes_inv {f : BinFile} (h : BFInv f) (n : Nat) : BFInv (f.readBytes n).2 := by
  exact ⟨Nat.min_le_right _ _, h.2⟩

theorem expand_offset (f : BinFile) (n : Nat) : (f.expand n).offset = f.offset := by
  unfold BinFile.expand; split <;> rfl

theorem expand_fileSize (f : BinFile) (n : Nat) : (f.expand n).fileSize = f.fileSize := by
  unfold BinFile.expand; split <;> rfl

theorem expand_data_length (f : BinFile) (n : Nat) :
    (f.expand n).data.length = max f.data.length n := by
  unfold BinFile.expand
  split
  · omega
  · simp only [List.length_append, List.length_replicate]
    omega

theorem expand_inv {f : BinFile} (h : BFInv f) (n : Nat) : BFInv (f.expand n) := by
  refine ⟨?_, ?_⟩
  · rw [expand_offset, expand_fileSize]; exact h.1
  · rw [expand_fileSize, expand_data_length]
    have := h.2
    omega

theorem writeU8_offset (f : BinFile) (v : Int) : (f.writeU8 v).offset = f.offset + 1 := by
  unfold BinFile.writeU8
  split <;> simp [expand_offset]

theorem writeU8_fileSize (f : BinFile) (v : Int) :
    (f.writeU8 v).fileSize = max f.fileSize (f.offset + 1) := by
  unfold BinFile.writeU8
  split <;> simp [expand_offset, expand_fileSize]

theorem writeU8_data_length (f : BinFile) (v : Int) :
    (f.writeU8 v).data.length = max f.data.length (f.offset + 1) := by
  unfold BinFile.writeU8
  split <;> rename_i hc
  · simp only [List.length_set, expand_data_length, expand_offset]
  · simp only [List.length_set]
    omega

theorem writeU8_inv {f : BinFile} (h : BFInv f) (v : Int) : BFInv (f.writeU8 v) := by
  obtain ⟨h1, h2⟩ := h
  refine ⟨?_, ?_⟩
  · rw [writeU8_offset, writeU8_fileSize]; omega
  · rw [writeU8_fileSize, writeU8_data_length]; omega

theorem writeU16_inv {f : BinFile} (h : BFInv f) (v : Int) : BFInv (f.writeU16 v) := by
  unfold BinFile.writeU16
  split <;> exact writeU8_inv (writeU8_inv h _) _

theorem writeU24_inv {f : BinFile} (h : BFInv f) (v : Int) : BFInv (f.writeU24 v) := by
  unfold BinFile.writeU24
  split <;> exact writeU8_inv (writeU8_inv (writeU8_inv h _) _) _

theorem writeU32_inv {f : BinFile} (h : BFInv f) (v : Int) : BFInv (f.writeU32 v) := by
  unfold BinFile.writeU32
  split <;> exact writeU8_inv (writeU8_inv (writeU8_inv (writeU8_inv h _) _) _) _

theorem setRange_length (l : List Nat) (i : Nat) (bs : List Nat)
    (h : i + bs.length ≤ l.length) : (setRange l i bs).length = l.length := by
  simp only [setRange, List.length_append, List.length_take, List.length_drop]
  omega

theorem writeBytes_offset (f : BinFile) (bs : List Nat) :
    (f.writeBytes bs).offset = f.offset + bs.length := by
  unfold BinFile.writeBytes
  split <;> simp [expand_offset]

theorem writeBytes_fileSize (f : BinFile) (bs : List Nat) :
    (f.writeBytes bs).fileSize = max f.fileSize (f.offset + bs.length) := by
  unfold BinFile.writeBytes
  split <;> simp [expand_offset, expand_fileSize]

theorem writeBytes_data_length (f : BinFile) (bs : List Nat) :
    (f.writeBytes bs).data.length = max f.data.length (f.offset + bs.length) := by
  unfold BinFile.writeBytes
  dsimp only
  split <;> rename_i hc
  · rw [setRange_length]
    · rw [expand_data_length]
    · rw [expand_offset, expand_data_length]
      omega
  · rw [setRange_length]
    · omega
    · omega

theorem writeBytes_inv {f : BinFile} (h : BFInv f) (bs : List Nat) :
    BFInv (f.writeBytes bs) := by
  obtain ⟨h1, h2⟩ := h
  refine ⟨?_, ?_⟩
  · rw [writeBytes_offset, writeBytes_fileSize]; omega
  · rw [writeBytes_fileSize, writeBytes_data_length]; omega

theorem truncate_inv {f : BinFile} (_ : BFInv f) (n : Nat) : BFInv (f.truncate n) := by
  unfold BinFile.truncate
  refine ⟨?_, Nat.min_le_right _ _⟩
  dsimp only
  split <;> omega

/-- The conjunction claim C9 asserts of a buffer satisfying the invariant. -/
def C9Prop (f : BinFile) : Prop :=
  (∀ o : Int, BFInv (f.seek o)) ∧
  (∀ n : Int, BFInv (f.skip n)) ∧
  BFInv (f.readU8).2 ∧ BFInv (f.readU16).2 ∧ BFInv (f.readU24).2 ∧ BFInv (f.readU32).2 ∧
  (∀ n : Nat, BFInv (f.readBytes n).2) ∧
  (∀ v : Int, BFInv (f.writeU8 v) ∧ BFInv (f.writeU16 v) ∧
    BFInv (f.writeU24 v) ∧ BFInv (f.writeU32 v)) ∧
  (∀ bs : List Nat, BFInv (f.writeBytes bs)) ∧
  (∀ n : Nat, BFInv (f.expand n)) ∧
  (∀ n : Nat, BFInv (f.truncate n)) ∧
  (f.fileSize ≤ f.offset → (f.readU8).1 = 0 ∧ (f.readU8).2 = f) ∧
  (∀ v : Int, f.fileSize ≤ f.offset →
    (f.writeU8 v).fileSize = f.offset + 1 ∧
    f.fileSize < (f.writeU8 v).fileSize ∧
    (f.writeU8 v).fileSize ≤ (f.writeU8 v).data.length)

/-- C9: every byte-cursor operation preserves `0 ≤ offset ≤ size ≤ capacity`; a read
at or past `size` returns 0 without moving the cursor; a write at or past `size`
grows `size` to `offset + 1` and keeps it within the (grown) backing store. -/
theorem claim_C9_cursor_invariants (f : BinFile) (h : BFInv f) : C9Prop f := by
  refine ⟨seek_inv h, skip_inv h, readU8_inv h, readU16_inv h, readU24_inv h,
    readU32_inv h, readBytes_inv h,
    fun v => ⟨writeU8_inv h v, writeU16_inv h v, writeU24_inv h v, writeU32_inv h v⟩,
    writeBytes_inv h, expand_inv h, truncate_inv h, ?_, ?_⟩
  · intro hpast
    unfold BinFile.readU8
    rw [if_pos hpast]
    exact ⟨rfl, rfl⟩
  · intro v hpast
    refine ⟨?_, ?_, ?_⟩
    · rw [writeU8_fileSize]; omega
    · rw [writeU8_fileSize]; omega
    · rw [writeU8_fileSize, writeU8_data_length]
      have := h.2
      omega

/-- C9 witness: the theorem applied at a concrete 3-byte buffer with its cursor at 1. -/
theorem claim_C9_cursor_invariants_witness :
    BFInv ⟨"rom.bin", 3, false, 1, [10, 20, 30]⟩ ∧
    C9Prop ⟨"rom.bin", 3, false, 1, [10, 20, 30]⟩ :=
  ⟨⟨by decide, by decide⟩,
   claim_C9_cursor_invariants ⟨"rom.bin", 3, false, 1, [10, 20, 30]⟩
     ⟨by decide, by decide⟩⟩

/-! ## Claim C10: `clone` is a deep copy -/

namespace Heap

theorem arr_alloc {s : Store} {a : List Nat} {r : Nat} (h : r < s.arrays.length) :
    (s.alloc a).1.arr r = s.arr r := by
  simp only [Store.alloc, Store.arr, List.getD_eq_getElem?_getD]
  rw [List.getElem?_append, if_pos h]

theorem arr_setArr_ne {s : Store} {i r : Nat} {a : List Nat} (h : r ≠ i) :
    (s.setArr i a).arr r = s.arr r := by
  simp only [Store.setArr, Store.arr, List.getD_eq_getElem?_getD]
  rw [List.getElem?_set_ne (Ne.symm h)]

/-- While the clone `c` is operated on, the original's array reference stays valid,
distinct from the clone's, and its contents stay what they were in the store `s0`. -/
def Untouched (s0 : Store) (b : BinFileRef) (s : Store) (c : BinFileRef) : Prop :=
  b.dataRef < s.arrays.length ∧ c.dataRef ≠ b.dataRef ∧ s.arr b.dataRef = s0.arr b.dataRef

theorem untouched_alloc {s0 : Store} {b : BinFileRef} {s : Store} {c : BinFileRef}
    (h : Untouched s0 b s c) (a : List Nat) (c' : BinFileRef)
    (hc' : c'.dataRef = (s.alloc a).2) :
    Untouched s0 b (s.alloc a).1 c' := by
  obtain ⟨h1, h2, h3⟩ := h
  refine ⟨?_, ?_, ?_⟩
  · simp only [Store.alloc, List.length_append, List.length_cons, List.length_nil]
    omega
  · rw [hc']
    show s.arrays.length ≠ b.dataRef
    omega
  · rw [arr_alloc h1, h3]

theorem untouched_expand {s0 : Store} {b : BinFileRef} {s : Store} {c : BinFileRef}
    (h : Untouched s0 b s c) (n : Nat) :
    Untouched s0 b (expand s c n).1 (expand s c n).2 := by
  unfold expand
  dsimp only
  split
  · exact h
  · exact untouched_alloc h _ _ rfl

theorem untouched_write_step {s0 : Store} {b : BinFileRef} {s : Store} {c : BinFileRef}
    (h : Untouched s0 b s c) (bytes : List Nat) (c' : BinFileRef)
    (hc' : c'.dataRef = c.dataRef) :
    Untouched s0 b (s.setArr c.dataRef bytes) c' := by
  obtain ⟨h1, h2, h3⟩ := h
  refine ⟨?_, ?_, ?_⟩
  · simp only [Store.setArr, List.length_set]
    exact h1
  · rw [hc']; exact h2
  · rw [arr_setArr_ne (Ne.symm h2), h3]

theorem untouched_writeU8 {s0 : Store} {b : BinFileRef} {s : Store} {c : BinFileRef}
    (h : Untouched s0 b s c) (v : Int) :
    Untouched s0 b (writeU8 s c v).1 (writeU8 s c v).2 := by
  unfold writeU8
  dsimp only
  split
  · exact untouched_write_step (untouched_expand h _) _ _ rfl
  · exact untouched_write_step h _ _ rfl

theorem untouched_writeBytes {s0 : Store} {b : BinFileRef} {s : Store} {c : BinFileRef}
    (h : Untouched s0 b s c) (bs : List Nat) :
    Untouched s0 b (writeBytes s c bs).1 (writeBytes s c bs).2 := by
  unfold writeBytes
  dsimp only
  split
  · exact untouched_write_step (untouched_expand h _) _ _ rfl
  · exact untouched_write_step h _ _ rfl

theorem untouched_runOp {s0 : Store} {b : BinFileRef} {s : Store} {c : BinFileRef}
    (h : Untouched s0 b s c) (op : WOp) :
    Untouched s0 b (runOp s c op).1 (runOp s c op).2 := by
  cases op with
  | w8 v => exact untouched_writeU8 h v
  | wbytes bs => exact untouched_writeBytes h bs
  | grow n => exact untouched_expand h n

theorem untouched_runOps {s0 : Store} {b : BinFileRef} :
    ∀ (ops : List WOp) {s : Store} {c : BinFileRef}, Untouched s0 b s c →
      Untouched s0 b (runOps s c ops).1 (runOps s c ops).2
  | [], _, _, h => h
  | op :: ops, _, _, h => untouched_runOps ops (untouched_runOp h op)

theorem untouched_clone {s : Store} {b : BinFileRef} (h : b.dataRef < s.arrays.length) :
    Untouched s b (clone s b).1 (clone s b).2 := by
  unfold clone
  dsimp only
  refine ⟨?_, ?_, ?_⟩
  · simp only [Store.alloc, List.length_append, List.length_cons, List.length_nil]
    omega
  · show s.arrays.length ≠ b.dataRef
    omega
  · exact arr_alloc h

/-- What claim C10 asserts once the clone has been taken. -/
def C10Conclusion (s : Store) (b : BinFileRef) : Prop :=
  (clone s b).2.fileName = b.fileName ∧
  (clone s b).2.fileSize = b.fileSize ∧
  (clone s b).2.littleEndian = b.littleEndian ∧
  (clone s b).2.offset = 0 ∧
  (clone s b).1.arr (clone s b).2.dataRef = s.arr b.dataRef ∧
  (clone s b).1.arr b.dataRef = s.arr b.dataRef ∧
  ∀ ops : List WOp,
    (runOps (clone s b).1 (clone s b).2 ops).1.arr b.dataRef = s.arr b.dataRef

/-- C10: `clone` copies the size, name and endianness flag, resets the cursor to 0,
and its bytes equal the original's (the whole backing store is copied, so in
particular the bytes on `[0, size)` agree); and because `clone` allocates fresh
storage (`this.data.slice()`), any sequence of writes or expands performed on the
clone leaves the original's bytes — and the untouched original value's size and
cursor — unchanged. -/
theorem claim_C10_clone_deep_copy (s : Store) (b : BinFileRef)
    (h : b.dataRef < s.arrays.length) : C10Conclusion s b := by
  have hcl := untouched_clone h
  refine ⟨rfl, rfl, rfl, rfl, ?_, hcl.2.2, ?_⟩
  · show (s.alloc (s.arr b.dataRef)).1.arr (s.alloc (s.arr b.dataRef)).2 = s.arr b.dataRef
    simp [Store.alloc, Store.arr]
  · intro ops
    exact (untouched_runOps ops hcl).2.2

/-- C10 witness: the theorem applied at a one-array store holding `[1, 2, 3]`. -/
theorem claim_C10_clone_deep_copy_witness :
    (⟨"rom.bin", 3, false, 1, 0⟩ : BinFileRef).dataRef <
      (⟨[[1, 2, 3]]⟩ : Store).arrays.length ∧
    C10Conclusion ⟨[[1, 2, 3]]⟩ ⟨"rom.bin", 3, false, 1, 0⟩ :=
  ⟨by decide,
   claim_C10_clone_deep_copy ⟨[[1, 2, 3]]⟩ ⟨"rom.bin", 3, false, 1, 0⟩ (by decide)⟩

end Heap

end ByteForge
